import Mathlib

/-!
Shallow embedding of `src/evaluator.py` (KVCacheQuantization repository).

Tensors are modelled as flat lists of exact rationals (`List ℚ`): two tensors
of identical shape correspond to two lists of identical length, and elementwise
operations become `List.zip` traversals.  Device moves (`.to(self.device)`) are
identity on values and are therefore dropped.  The language model, the two
quantizers and matplotlib are external collaborators (per spec section 6); the
values the evaluator reads from them (log-softmax arrays, sliced caches and
attentions, achieved bit widths and sizes) are taken as abstract inputs of the
corresponding definitions, exactly in the sliced form the source builds in
lines 74-76, 90-91 and 103-111 of `evaluator.py`.
-/

set_option autoImplicit false

namespace KVQ

/-- A tensor, flattened to its elements.  Two tensors of identical shape are
modelled by two lists of identical length. -/
abbrev Tensor := List ℚ

/-- Embeds `Evaluator._calc_tensor_error` (evaluator.py line 62-63):
`((tensor1.to(self.device) - tensor2.to(self.device)) ** 2).mean().item()`.
The device transfer is the identity on values; the mean of the squared
elementwise difference is the sum over the zipped elements divided by the
element count of the first operand (for identically shaped tensors the zip is
the full elementwise pairing). -/
def calc_tensor_error (tensor1 tensor2 : Tensor) : ℚ :=
  ((List.zip tensor1 tensor2).map (fun p => (p.1 - p.2) ^ 2)).sum / tensor1.length

/-- Embeds `Evaluator._calc_attention_error` (evaluator.py line 65-66):
`sum(self._calc_tensor_error(attn1, attn2) for attn1, attn2 in zip(attention1, attention2)) / len(attention1)`.
Note that Python `zip` stops at the shorter of the two sequences and the sum is
divided by the length of the FIRST sequence; no length check is performed. -/
def calc_attention_error (attention1 attention2 : List Tensor) : ℚ :=
  ((List.zip attention1 attention2).map (fun p => calc_tensor_error p.1 p.2)).sum
    / attention1.length

/-- A multiple-choice question (external `Question` collaborator, spec section 3).
`input_ids i j` is the token id of choice `i` at sequence position `j`
(the source indexes `input_ids[choice_idx, pos]`). -/
structure Question where
  input_ids : ℕ → ℕ → ℕ
  question_length : ℕ
  choice_length : List ℕ
  answer_idx : ℕ

/-- The `EvaluationResult` dataclass (evaluator.py lines 16-31).  All fields
default to `0.0` in the source.  `answer_log_probability` is `Option ℚ`
because `_evaluate_single` stores the Python value `None` into this field
whenever the scoring loop never hits `choice_idx == question.answer_idx`
(empty choices or out-of-range answer index); Python dataclasses do not
enforce the `float` annotation.  The source sets `accuracy_confidence` to
`1.96 * math.sqrt(...)`, an irrational real in general; that assignment is
modelled separately by `accuracy_confidence_value` below and the rational
field keeps its default in the corpus aggregate. -/
structure EvaluationResult where
  accuracy : ℚ := 0
  accuracy_confidence : ℚ := 0
  answer_log_probability : Option ℚ := some 0
  quantization_error : ℚ := 0
  key_quantization_error : ℚ := 0
  value_quantization_error : ℚ := 0
  attention_error : ℚ := 0
  logit_error : ℚ := 0
  average_n_bits : ℚ := 0
  key_average_n_bits : ℚ := 0
  value_average_n_bits : ℚ := 0
  average_size : ℚ := 0
  key_average_size : ℚ := 0
  value_average_size : ℚ := 0
deriving DecidableEq

/-- Everything `_evaluate_single` reads from the external model and quantizer
collaborators for one question, already sliced as in the source:
* `first_word_log_softmax c t`: entry `t` of
  `F.log_softmax(result.logits[:, question_len-1], dim=-1)[c]` (line 90);
* `quantized_log_softmax c j t`: entry `t` of
  `F.log_softmax(quantized_result.logits, dim=-1)[c, j]` (line 91);
* the four cache tensors of lines 75-78 (flattened);
* the per-layer attention slices of lines 106-107;
* the logits slices of line 109 (flattened);
* the achieved average bit widths returned by `quantize` (lines 77-78) and the
  per-token sizes returned by `calc_quantized_cache_size_per_token`
  (lines 110-111). -/
structure SingleData where
  first_word_log_softmax : ℕ → ℕ → ℚ
  quantized_log_softmax : ℕ → ℕ → ℕ → ℚ
  key_cache : Tensor
  quantized_key_cache : Tensor
  value_cache : Tensor
  quantized_value_cache : Tensor
  attentions_sliced : List Tensor
  quantized_attentions_sliced : List Tensor
  logits_sliced : Tensor
  quantized_logits : Tensor
  key_average_n_bits : ℚ
  value_average_n_bits : ℚ
  key_average_size : ℚ
  value_average_size : ℚ

/-- The per-choice log probability computed by evaluator.py lines 94-96:
the unquantized pass's log-softmax at the last prefix position evaluated at
the first continuation token, plus the quantized pass's log-softmax at
positions `0 .. L-2` evaluated at continuation tokens
`question_len+1 .. question_len+L-1`, all divided by the continuation
length `L`. -/
def choice_log_probability (fw : ℕ → ℕ → ℚ) (qls : ℕ → ℕ → ℕ → ℚ)
    (ids : ℕ → ℕ → ℕ) (question_len choice_idx choice_len : ℕ) : ℚ :=
  (fw choice_idx (ids choice_idx question_len) +
      ((List.range (choice_len - 1)).map
        (fun j => qls choice_idx j (ids choice_idx (question_len + 1 + j)))).sum)
    / choice_len

/-- The mutable loop state of evaluator.py line 92:
`max_log_probability, max_choice_idx, answer_log_probability = None, None, None`. -/
structure ScoreState where
  max_log_probability : Option ℚ := none
  max_choice_idx : Option ℕ := none
  answer_log_probability : Option ℚ := none
deriving DecidableEq

/-- The scoring loop of evaluator.py lines 93-101, with the per-choice score
abstracted as `score choice_idx choice_len`; the loop carries the running
choice index `c` (the source uses `enumerate`). -/
def score_loop (score : ℕ → ℕ → ℚ) (answer_idx : ℕ) :
    ℕ → List ℕ → ScoreState → ScoreState
  | _, [], st => st
  | c, choice_len :: rest, st =>
    let p := score c choice_len
    let st1 := if c = answer_idx then { st with answer_log_probability := some p } else st
    let st2 :=
      match st1.max_log_probability with
      | none => { st1 with max_log_probability := some p, max_choice_idx := some c }
      | some m =>
          if m < p then { st1 with max_log_probability := some p, max_choice_idx := some c }
          else st1
    score_loop score answer_idx (c + 1) rest st2

/-- Embeds `Evaluator._evaluate_single` (evaluator.py lines 68-126), with the model
and quantizer outputs supplied through `d`.  The two forward passes, the
slicing and the quantizer calls are external; every computation the evaluator
itself performs (scoring loop, error metrics, field assembly) is translated
directly. -/
def evaluate_single (d : SingleData) (question : Question) : EvaluationResult :=
  let st := score_loop
    (choice_log_probability d.first_word_log_softmax d.quantized_log_softmax
      question.input_ids question.question_length)
    question.answer_idx 0 question.choice_length {}
  let key_quantization_error := calc_tensor_error d.key_cache d.quantized_key_cache
  let value_quantization_error := calc_tensor_error d.value_cache d.quantized_value_cache
  let attention_error :=
    calc_attention_error d.attentions_sliced d.quantized_attentions_sliced
  let logit_error := calc_tensor_error d.logits_sliced d.quantized_logits
  { accuracy := if st.max_choice_idx = some question.answer_idx then 1 else 0
    answer_log_probability := st.answer_log_probability
    quantization_error := (key_quantization_error + value_quantization_error) / 2
    key_quantization_error := key_quantization_error
    value_quantization_error := value_quantization_error
    attention_error := attention_error
    logit_error := logit_error
    average_size := (d.key_average_size + d.value_average_size) / 2
    key_average_size := d.key_average_size
    value_average_size := d.value_average_size
    average_n_bits := (d.key_average_n_bits + d.value_average_n_bits) / 2
    key_average_n_bits := d.key_average_n_bits
    value_average_n_bits := d.value_average_n_bits }

/-- The accumulation loop of `Evaluator.evaluate` (evaluator.py lines 129-148),
parameterized by the per-question evaluation `single` (the source calls
`self._evaluate_single(idx, question)`).  The accumulator starts from the
default-constructed `EvaluationResult()` and a token counter at `0`.
`result.answer_log_probability += single_result.answer_log_probability`
raises a `TypeError` when the single result carries Python `None`
(line 137); that abort is modelled by returning `none`. -/
def evaluate_loop (single : ℕ → Question → EvaluationResult) :
    ℕ → List Question → EvaluationResult → ℕ → Option (EvaluationResult × ℕ)
  | _, [], acc, total_tokens => some (acc, total_tokens)
  | idx, question :: rest, acc, total_tokens =>
    let s := single idx question
    match acc.answer_log_probability, s.answer_log_probability with
    | some acc_alp, some s_alp =>
      let n := question.question_length
      evaluate_loop single (idx + 1) rest
        { acc with
          accuracy := acc.accuracy + s.accuracy
          answer_log_probability := some (acc_alp + s_alp)
          quantization_error := acc.quantization_error + s.quantization_error
          key_quantization_error := acc.key_quantization_error + s.key_quantization_error
          value_quantization_error := acc.value_quantization_error + s.value_quantization_error
          attention_error := acc.attention_error + s.attention_error
          logit_error := acc.logit_error + s.logit_error
          average_size := acc.average_size + s.average_size * n
          key_average_size := acc.key_average_size + s.key_average_size * n
          value_average_size := acc.value_average_size + s.value_average_size * n
          average_n_bits := acc.average_n_bits + s.average_n_bits * n
          key_average_n_bits := acc.key_average_n_bits + s.key_average_n_bits * n
          value_average_n_bits := acc.value_average_n_bits + s.value_average_n_bits * n }
        (total_tokens + n)
    | _, _ => none

/-- Embeds `Evaluator.evaluate` (evaluator.py lines 128-164).  After the loop the
unweighted fields are divided by `len(self.questions)` (lines 149-157) and the
token-weighted fields by `total_tokens` (lines 158-163).  In Python both
divisions raise `ZeroDivisionError` when the divisor is zero (empty question
list at line 149, zero total tokens at line 158); those aborts are modelled by
`none`.  Line 151 stores `1.96 * math.sqrt(...)` into `accuracy_confidence`;
that real value is modelled by `accuracy_confidence_value` below and the
rational field keeps its default `0` here. -/
def evaluate (single : ℕ → Question → EvaluationResult) (questions : List Question) :
    Option EvaluationResult :=
  match evaluate_loop single 0 questions {} 0 with
  | none => none
  | some (acc, total_tokens) =>
    match acc.answer_log_probability with
    | none => none
    | some alp =>
      if questions.length = 0 then none
      else if total_tokens = 0 then none
      else
        some { accuracy := acc.accuracy / (questions.length : ℚ)
               accuracy_confidence := 0
               answer_log_probability := some (alp / (questions.length : ℚ))
               quantization_error := acc.quantization_error / (questions.length : ℚ)
               key_quantization_error := acc.key_quantization_error / (questions.length : ℚ)
               value_quantization_error := acc.value_quantization_error / (questions.length : ℚ)
               attention_error := acc.attention_error / (questions.length : ℚ)
               logit_error := acc.logit_error / (questions.length : ℚ)
               average_size := acc.average_size / (total_tokens : ℚ)
               key_average_size := acc.key_average_size / (total_tokens : ℚ)
               value_average_size := acc.value_average_size / (total_tokens : ℚ)
               average_n_bits := acc.average_n_bits / (total_tokens : ℚ)
               key_average_n_bits := acc.key_average_n_bits / (total_tokens : ℚ)
               value_average_n_bits := acc.value_average_n_bits / (total_tokens : ℚ) }

/-- The value stored into `accuracy_confidence` by evaluator.py line 151:
`1.96 * math.sqrt(result.accuracy * (1.0 - result.accuracy) / len(self.questions))`. -/
noncomputable def accuracy_confidence_value (question_count : ℕ) (accuracy : ℚ) : ℝ :=
  1.96 * Real.sqrt ((accuracy : ℝ) * (1 - (accuracy : ℝ)) / (question_count : ℝ))

/-- The full per-corpus pipeline: `Evaluator.evaluate` with the per-question
results produced by `Evaluator._evaluate_single`, the model/quantizer data of
question `idx` being `data idx`. -/
def evaluate_full (data : ℕ → Question → SingleData) (questions : List Question) :
    Option EvaluationResult :=
  evaluate (fun idx q => evaluate_single (data idx q) q) questions

/-- An external `Quantizer` collaborator, as consumed by the evaluator:
a granularity `level` (compared against the string `"token"` in the
assertions) and a `params` mapping used in fingerprinting. -/
structure Quantizer where
  level : String
  params : List (String × ℚ)
deriving DecidableEq

/-- The `Evaluator` object state set up by `Evaluator.__init__`
(evaluator.py lines 35-47).  The model collaborator enters the fingerprint
only through `self.model.name_or_path`, kept here as `model_name`; the device
is identity on values in this embedding but kept as part of the state. -/
structure Evaluator where
  device : String
  version : String
  model_name : String
  questions : List Question
  key_quantizer : Quantizer
  value_quantizer : Quantizer
  enable_draw_cache_insights : Bool

/-- Embeds `Evaluator.__init__` (evaluator.py lines 35-50): stores the fields and,
when `draw_cache_insights` is set, asserts that both quantizers operate at
token granularity before anything else runs (no model forward pass is issued
during construction).  A failed `assert` is modelled by `none`. -/
def evaluator_init (device version model_name : String) (questions : List Question)
    (key_quantizer value_quantizer : Quantizer) (draw_cache_insights : Bool) :
    Option Evaluator :=
  if draw_cache_insights then
    if key_quantizer.level = "token" then
      if value_quantizer.level = "token" then
        some { device := device, version := version, model_name := model_name
               questions := questions, key_quantizer := key_quantizer
               value_quantizer := value_quantizer
               enable_draw_cache_insights := draw_cache_insights }
      else none
    else none
  else
    some { device := device, version := version, model_name := model_name
           questions := questions, key_quantizer := key_quantizer
           value_quantizer := value_quantizer
           enable_draw_cache_insights := draw_cache_insights }

/-- The evaluation-parameter fingerprint `Evaluator.params`
(evaluator.py lines 52-60). -/
structure Params where
  version : String
  model_name : String
  question_count : ℕ
  key_quantizer : List (String × ℚ)
  value_quantizer : List (String × ℚ)
deriving DecidableEq

/-- Embeds `Evaluator.params` (evaluator.py lines 52-60): version, model identity,
question count and both quantizers' parameter mappings. -/
def Evaluator.params (e : Evaluator) : Params :=
  { version := e.version
    model_name := e.model_name
    question_count := e.questions.length
    key_quantizer := e.key_quantizer.params
    value_quantizer := e.value_quantizer.params }

/-- One record of the on-disk result cache: `{"params": ..., "results": ...}`
(evaluator.py lines 176-179).  JSON serialization of the result is exact for
the purpose of this model (Python round-trips floats through `repr`). -/
structure CacheEntry where
  params : Params
  results : EvaluationResult
deriving DecidableEq

/-- The lookup loop of `cached_evaluate` (evaluator.py lines 170-172):
`for entry in cached_results: if entry["params"] == self.params: return ...` —
the FIRST record whose fingerprint equals the current one wins. -/
def lookup_params (p : Params) : List CacheEntry → Option EvaluationResult
  | [] => none
  | entry :: rest => if entry.params = p then some entry.results else lookup_params p rest

/-- Embeds `Evaluator.cached_evaluate` (evaluator.py lines 166-183).  The file system
is modelled by `store : Option (List CacheEntry)` (`none` = the backing file
does not exist) together with `cache_given : Bool` (`cache_file is not None`).
`eval_result` is the outcome `self.evaluate(use_tqdm)` would produce — the
full corpus evaluation, deterministic for a fixed evaluator.  The returned
triple is (returned result, file state after the call, number of times the
full evaluation — and hence the model — was invoked). -/
def cached_evaluate (e : Evaluator) (eval_result : EvaluationResult)
    (cache_given : Bool) (store : Option (List CacheEntry)) :
    EvaluationResult × Option (List CacheEntry) × ℕ :=
  match cache_given, store with
  | true, some entries =>
    match lookup_params e.params entries with
    | some r => (r, some entries, 0)
    | none =>
      (eval_result, some (entries ++ [{ params := e.params, results := eval_result }]), 1)
  | true, none =>
    (eval_result, some ([] ++ [{ params := e.params, results := eval_result }]), 1)
  | false, _ => (eval_result, store, 1)

/-- The assertion prologue of `Evaluator.draw_cache_insights`
(evaluator.py lines 187-188): both quantizers must be token-level before any
rendering happens.  The matplotlib side effects are external; only the
assertions are modelled (`none` = `AssertionError`). -/
def draw_cache_insights (e : Evaluator) : Option Unit :=
  if e.key_quantizer.level = "token" then
    if e.value_quantizer.level = "token" then some () else none
  else none

/-- Sum of a per-question quantity over an indexed question list, starting at
index `idx` (matching the `enumerate` in evaluator.py line 132). -/
def qsum (f : ℕ → Question → ℚ) : ℕ → List Question → ℚ
  | _, [] => 0
  | idx, q :: rest => f idx q + qsum f (idx + 1) rest

/-- Total `question_length` over a question list (the final value of
`total_tokens` in evaluator.py lines 130-135). -/
def total_len (questions : List Question) : ℕ :=
  (questions.map Question.question_length).sum

/-- Whether every per-question result carries an actual (non-`None`)
`answer_log_probability`, starting at index `idx`. -/
def answers_ok (single : ℕ → Question → EvaluationResult) :
    ℕ → List Question → Bool
  | _, [] => true
  | idx, q :: rest =>
    (single idx q).answer_log_probability.isSome && answers_ok single (idx + 1) rest

/-- Number of questions answered correctly (per-question `accuracy = 1`),
starting at index `idx`. -/
def correct_count (single : ℕ → Question → EvaluationResult) :
    ℕ → List Question → ℕ
  | _, [] => 0
  | idx, q :: rest =>
    (if (single idx q).accuracy = 1 then 1 else 0) + correct_count single (idx + 1) rest

theorem score_loop_answer_of_lt (score : ℕ → ℕ → ℚ) (a : ℕ) :
    ∀ (Ls : List ℕ) (c : ℕ) (st : ScoreState), a < c →
    (score_loop score a c Ls st).answer_log_probability = st.answer_log_probability := by
  intro Ls
  induction Ls with
  | nil => intro c st _; rfl
  | cons L rest ih =>
    intro c st h
    obtain ⟨mx, mi, ans⟩ := st
    have hca : ¬ c = a := by omega
    cases mx with
    | none =>
      simp only [score_loop, hca, if_false]
      exact ih (c + 1) _ (by omega)
    | some m =>
      by_cases hmp : m < score c L
      · simp only [score_loop, hca, if_false, hmp, if_true]
        exact ih (c + 1) _ (by omega)
      · simp only [score_loop, hca, if_false, hmp]
        exact ih (c + 1) _ (by omega)

theorem score_loop_answer_of_ge (score : ℕ → ℕ → ℚ) (a : ℕ) :
    ∀ (Ls : List ℕ) (c : ℕ) (st : ScoreState), c + Ls.length ≤ a →
    (score_loop score a c Ls st).answer_log_probability = st.answer_log_probability := by
  intro Ls
  induction Ls with
  | nil => intro c st _; rfl
  | cons L rest ih =>
    intro c st h
    obtain ⟨mx, mi, ans⟩ := st
    have hca : ¬ c = a := by simp only [List.length_cons] at h; omega
    have hnext : c + 1 + rest.length ≤ a := by simp only [List.length_cons] at h; omega
    cases mx with
    | none =>
      simp only [score_loop, hca, if_false]
      exact ih (c + 1) _ hnext
    | some m =>
      by_cases hmp : m < score c L
      · simp only [score_loop, hca, if_false, hmp, if_true]
        exact ih (c + 1) _ hnext
      · simp only [score_loop, hca, if_false, hmp]
        exact ih (c + 1) _ hnext

theorem score_loop_answer_set (score : ℕ → ℕ → ℚ) (a : ℕ) :
    ∀ (Ls : List ℕ) (c : ℕ) (st : ScoreState), c ≤ a → a - c < Ls.length →
    (score_loop score a c Ls st).answer_log_probability =
      some (score a (Ls.getD (a - c) 0)) := by
  intro Ls
  induction Ls with
  | nil => intro c st _ habs; simp at habs
  | cons L rest ih =>
    intro c st hle hlt
    obtain ⟨mx, mi, ans⟩ := st
    by_cases hca : c = a
    · subst hca
      have hz : c - c = 0 := by omega
      rw [hz, List.getD_cons_zero]
      cases mx with
      | none =>
        simp only [score_loop]
        rw [score_loop_answer_of_lt score c rest (c + 1) _ (by omega)]
        simp
      | some m =>
        by_cases hmp : m < score c L
        · simp only [score_loop]
          rw [score_loop_answer_of_lt score c rest (c + 1) _ (by omega)]
          simp [hmp]
        · simp only [score_loop]
          rw [score_loop_answer_of_lt score c rest (c + 1) _ (by omega)]
          simp [hmp]
    · have hlt2 : a - (c + 1) < rest.length := by
        simp only [List.length_cons] at hlt; omega
      have hidx : a - c = (a - (c + 1)) + 1 := by omega
      rw [hidx, List.getD_cons_succ]
      cases mx with
      | none =>
        simp only [score_loop, hca, if_false]
        exact ih (c + 1) _ (by omega) hlt2
      | some m =>
        by_cases hmp : m < score c L
        · simp only [score_loop, hca, if_false, hmp, if_true]
          exact ih (c + 1) _ (by omega) hlt2
        · simp only [score_loop, hca, if_false, hmp]
          exact ih (c + 1) _ (by omega) hlt2

theorem score_loop_max_char (score : ℕ → ℕ → ℚ) (a : ℕ) :
    ∀ (Ls : List ℕ) (c : ℕ) (m : ℚ) (j : ℕ) (ans : Option ℚ),
    ∃ m2 j2,
      (score_loop score a c Ls ⟨some m, some j, ans⟩).max_log_probability = some m2 ∧
      (score_loop score a c Ls ⟨some m, some j, ans⟩).max_choice_idx = some j2 ∧
      ((m2 = m ∧ j2 = j ∧ ∀ k, k < Ls.length → score (c + k) (Ls.getD k 0) ≤ m) ∨
        (∃ k, k < Ls.length ∧ j2 = c + k ∧ m2 = score (c + k) (Ls.getD k 0) ∧ m < m2 ∧
          (∀ k2, k2 < Ls.length → score (c + k2) (Ls.getD k2 0) ≤ m2) ∧
          (∀ k2, k2 < k → score (c + k2) (Ls.getD k2 0) < m2))) := by
  intro Ls
  induction Ls with
  | nil =>
    intro c m j ans
    exact ⟨m, j, rfl, rfl, Or.inl ⟨rfl, rfl, by intro k hk; simp at hk⟩⟩
  | cons L rest ih =>
    intro c m j ans
    by_cases hmp : m < score c L
    · have hred : score_loop score a c (L :: rest) ⟨some m, some j, ans⟩ =
          score_loop score a (c + 1) rest
            ⟨some (score c L), some c, if c = a then some (score c L) else ans⟩ := by
        by_cases hca : c = a
        · subst hca; simp [score_loop, hmp]
        · simp [score_loop, hca, hmp]
      rw [hred]
      obtain ⟨m2, j2, e1, e2, h3⟩ := ih (c + 1) (score c L) c _
      refine ⟨m2, j2, e1, e2, Or.inr ?_⟩
      rcases h3 with ⟨em, ej, hb⟩ | ⟨k, hk, ej, em, hlt, hb, hs⟩
      · refine ⟨0, by simp, by omega, ?_, ?_, ?_, ?_⟩
        · rw [em]; rfl
        · rw [em]; exact hmp
        · intro k2 hk2
          cases k2 with
          | zero => rw [em]; exact le_of_eq rfl
          | succ k3 =>
            have hidx : c + (k3 + 1) = c + 1 + k3 := by omega
            rw [List.getD_cons_succ, hidx, em]
            exact hb k3 (by simp only [List.length_cons] at hk2; omega)
        · intro k2 hk2; omega
      · refine ⟨k + 1, by simp only [List.length_cons]; omega, by omega, ?_, ?_, ?_, ?_⟩
        · have hidx : c + (k + 1) = c + 1 + k := by omega
          rw [List.getD_cons_succ, hidx]; exact em
        · exact lt_trans hmp hlt
        · intro k2 hk2
          cases k2 with
          | zero => exact le_of_lt hlt
          | succ k3 =>
            have hidx : c + (k3 + 1) = c + 1 + k3 := by omega
            rw [List.getD_cons_succ, hidx]
            exact hb k3 (by simp only [List.length_cons] at hk2; omega)
        · intro k2 hk2
          cases k2 with
          | zero => exact hlt
          | succ k3 =>
            have hidx : c + (k3 + 1) = c + 1 + k3 := by omega
            rw [List.getD_cons_succ, hidx]
            exact hs k3 (by omega)
    · have hred : score_loop score a c (L :: rest) ⟨some m, some j, ans⟩ =
          score_loop score a (c + 1) rest
            ⟨some m, some j, if c = a then some (score c L) else ans⟩ := by
        by_cases hca : c = a
        · subst hca; simp [score_loop, hmp]
        · simp [score_loop, hca, hmp]
      rw [hred]
      obtain ⟨m2, j2, e1, e2, h3⟩ := ih (c + 1) m j _
      refine ⟨m2, j2, e1, e2, ?_⟩
      rcases h3 with ⟨em, ej, hb⟩ | ⟨k, hk, ej, em, hlt, hb, hs⟩
      · refine Or.inl ⟨em, ej, ?_⟩
        intro k2 hk2
        cases k2 with
        | zero => exact le_of_not_lt hmp
        | succ k3 =>
          have hidx : c + (k3 + 1) = c + 1 + k3 := by omega
          rw [List.getD_cons_succ, hidx]
          exact hb k3 (by simp only [List.length_cons] at hk2; omega)
      · refine Or.inr ⟨k + 1, by simp only [List.length_cons]; omega, by omega, ?_, hlt, ?_, ?_⟩
        · have hidx : c + (k + 1) = c + 1 + k := by omega
          rw [List.getD_cons_succ, hidx]; exact em
        · intro k2 hk2
          cases k2 with
          | zero => exact le_of_lt (lt_of_le_of_lt (le_of_not_lt hmp) hlt)
          | succ k3 =>
            have hidx : c + (k3 + 1) = c + 1 + k3 := by omega
            rw [List.getD_cons_succ, hidx]
            exact hb k3 (by simp only [List.length_cons] at hk2; omega)
        · intro k2 hk2
          cases k2 with
          | zero => exact lt_of_le_of_lt (le_of_not_lt hmp) hlt
          | succ k3 =>
            have hidx : c + (k3 + 1) = c + 1 + k3 := by omega
            rw [List.getD_cons_succ, hidx]
            exact hs k3 (by omega)

theorem score_loop_first_argmax (score : ℕ → ℕ → ℚ) (a : ℕ) (L : ℕ) (rest : List ℕ) :
    ∃ j2, (score_loop score a 0 (L :: rest) {}).max_choice_idx = some j2 ∧
      (score_loop score a 0 (L :: rest) {}).max_log_probability =
        some (score j2 ((L :: rest).getD j2 0)) ∧
      j2 < (L :: rest).length ∧
      (∀ k, k < (L :: rest).length →
        score k ((L :: rest).getD k 0) ≤ score j2 ((L :: rest).getD j2 0)) ∧
      (∀ k, k < j2 → score k ((L :: rest).getD k 0) < score j2 ((L :: rest).getD j2 0)) := by
  have hred : score_loop score a 0 (L :: rest) {} =
      score_loop score a 1 rest
        ⟨some (score 0 L), some 0, if 0 = a then some (score 0 L) else none⟩ := by
    by_cases hca : 0 = a
    · subst hca; simp [score_loop]
    · simp [score_loop, hca]
  rw [hred]
  obtain ⟨m2, j2, e1, e2, h3⟩ := score_loop_max_char score a rest 1 (score 0 L) 0 _
  rcases h3 with ⟨em, ej, hb⟩ | ⟨k, hk, ej, em, hlt, hb, hs⟩
  · refine ⟨0, by rw [e2, ej], ?_, by simp, ?_, ?_⟩
    · rw [e1, em]; rfl
    · intro k hklen
      cases k with
      | zero => exact le_of_eq rfl
      | succ k3 =>
        rw [List.getD_cons_succ]
        have hidx : k3 + 1 = 1 + k3 := by omega
        rw [hidx]
        exact hb k3 (by simp only [List.length_cons] at hklen; omega)
    · intro k hk
      exact absurd hk (by omega)
  · refine ⟨1 + k, by rw [e2, ej], ?_, by simp only [List.length_cons]; omega, ?_, ?_⟩
    · rw [e1, em]
      have hidx : 1 + k = k + 1 := by omega
      rw [hidx, List.getD_cons_succ]
    · intro k2 hklen
      have hgoal : score (1 + k) ((L :: rest).getD (1 + k) 0) = m2 := by
        have hidx : 1 + k = k + 1 := by omega
        rw [hidx, List.getD_cons_succ, ← hidx, em]
      rw [hgoal]
      cases k2 with
      | zero => exact le_of_lt hlt
      | succ k3 =>
        rw [List.getD_cons_succ]
        have hidx : k3 + 1 = 1 + k3 := by omega
        rw [hidx]
        exact hb k3 (by simp only [List.length_cons] at hklen; omega)
    · intro k2 hk2
      have hgoal : score (1 + k) ((L :: rest).getD (1 + k) 0) = m2 := by
        have hidx : 1 + k = k + 1 := by omega
        rw [hidx, List.getD_cons_succ, ← hidx, em]
      rw [hgoal]
      cases k2 with
      | zero => exact hlt
      | succ k3 =>
        rw [List.getD_cons_succ]
        have hidx : k3 + 1 = 1 + k3 := by omega
        rw [hidx]
        exact hs k3 (by omega)

theorem zip_append_right_of_le {α β : Type} (l1 : List α) (l2 extra : List β)
    (h : l1.length ≤ l2.length) : l1.zip (l2 ++ extra) = l1.zip l2 := by
  induction l1 generalizing l2 with
  | nil => simp
  | cons x xs ih =>
    cases l2 with
    | nil => simp at h
    | cons y ys =>
      simp only [List.cons_append, List.zip_cons_cons]
      rw [ih ys (by simpa using h)]

theorem zip_append_left_of_le {α β : Type} (l1 extra : List α) (l2 : List β)
    (h : l2.length ≤ l1.length) : (l1 ++ extra).zip l2 = l1.zip l2 := by
  induction l1 generalizing l2 with
  | nil =>
    cases l2 with
    | nil => simp
    | cons y ys => simp at h
  | cons x xs ih =>
    cases l2 with
    | nil => simp
    | cons y ys =>
      simp only [List.cons_append, List.zip_cons_cons]
      rw [ih _ (by simpa using h)]

/-- Claim C1 (counterexample): `_calc_attention_error` applied to the
one-layer sequence `[[0]]` and the two-layer sequence `[[0], [5]]` does not
fail on the length mismatch; it silently truncates the pairing and returns
the same value as on the matching sequences `[[0]]` and `[[0]]`, even though
the extra layer `[5]` is very different from anything in the first sequence. -/
theorem attention_error_mismatch_no_failure_cex :
    ([[(0 : ℚ)]] : List Tensor).length ≠ ([[(0 : ℚ)], [(5 : ℚ)]] : List Tensor).length ∧
    calc_attention_error [[(0 : ℚ)]] [[(0 : ℚ)], [(5 : ℚ)]] =
      calc_attention_error [[(0 : ℚ)]] [[(0 : ℚ)]] := by
  constructor
  · decide
  · norm_num [calc_attention_error, calc_tensor_error]

/-- Claim C1 (amended): for attention-tensor sequences of different lengths,
`_calc_attention_error` raises no length-mismatch error; Python `zip`
silently truncates the pairing to the shorter sequence and the sum is divided
by the FIRST sequence's length.  Concretely, extra trailing layers of the
second sequence are ignored, and extra trailing layers of the first sequence
only rescale the mean by `len(attention1) / len(attention1 ++ extra)`
(the missing pairs count as zero error). -/
theorem attention_error_silent_truncation (a1 a2 extra : List Tensor)
    (h1 : 0 < a1.length) :
    (a1.length ≤ a2.length →
      calc_attention_error a1 (a2 ++ extra) = calc_attention_error a1 a2) ∧
    (a2.length ≤ a1.length →
      calc_attention_error (a1 ++ extra) a2 =
        calc_attention_error a1 a2 *
          ((a1.length : ℚ) / (((a1 ++ extra).length : ℕ) : ℚ))) := by
  constructor
  · intro h2
    unfold calc_attention_error
    rw [zip_append_right_of_le a1 a2 extra h2]
  · intro h2
    unfold calc_attention_error
    rw [zip_append_left_of_le a1 extra a2 h2]
    have hl1 : ((a1.length : ℕ) : ℚ) ≠ 0 := by exact_mod_cast h1.ne'
    have hL : (((a1 ++ extra).length : ℕ) : ℚ) ≠ 0 := by
      have hpos : 0 < (a1 ++ extra).length := by
        rw [List.length_append]; omega
      exact_mod_cast hpos.ne'
    field_simp

/-- Witness for `attention_error_silent_truncation` at concrete sequences of
lengths 1 and 2. -/
theorem attention_error_silent_truncation_witness :
    (calc_attention_error [[(0 : ℚ)]] ([[(0 : ℚ)]] ++ [[(5 : ℚ)]]) =
      calc_attention_error [[(0 : ℚ)]] [[(0 : ℚ)]]) ∧
    (calc_attention_error ([[(0 : ℚ)]] ++ [[(5 : ℚ)]]) [[(0 : ℚ)]] =
      calc_attention_error [[(0 : ℚ)]] [[(0 : ℚ)]] *
        (((([[(0 : ℚ)]] : List Tensor).length : ℕ) : ℚ) /
          (((([[(0 : ℚ)]] ++ [[(5 : ℚ)]] : List Tensor)).length : ℕ) : ℚ))) :=
  ⟨(attention_error_silent_truncation [[(0 : ℚ)]] [[(0 : ℚ)]] [[(5 : ℚ)]] (by decide)).1
      (by decide),
    (attention_error_silent_truncation [[(0 : ℚ)]] [[(0 : ℚ)]] [[(5 : ℚ)]] (by decide)).2
      (by decide)⟩

/-- Claim C10: on an empty question list `Evaluator.evaluate` aborts (Python
raises `ZeroDivisionError` at `result.accuracy /= len(self.questions)`,
evaluator.py line 149) instead of returning an `EvaluationResult` full of
NaNs: the embedded pipeline yields `none` for every choice of model data. -/
theorem evaluate_empty_question_list_fails (data : ℕ → Question → SingleData) :
    evaluate_full data [] = none := rfl

theorem lookup_params_append_of_none (p : Params) (entries : List CacheEntry)
    (v : EvaluationResult) (h : lookup_params p entries = none) :
    lookup_params p (entries ++ [{ params := p, results := v }]) = some v := by
  induction entries with
  | nil => simp [lookup_params]
  | cons entry rest ih =>
    simp only [List.cons_append, lookup_params] at h ⊢
    by_cases hp : entry.params = p
    · simp [hp] at h
    · rw [if_neg hp] at h ⊢
      exact ih h

theorem lookup_params_first (p : Params) (pre : List CacheEntry) (ent : CacheEntry)
    (post : List CacheEntry) (hpre : ∀ x ∈ pre, x.params ≠ p) (hent : ent.params = p) :
    lookup_params p (pre ++ ent :: post) = some ent.results := by
  induction pre with
  | nil => simp [lookup_params, hent]
  | cons x xs ih =>
    simp only [List.cons_append, lookup_params, hpre x (List.mem_cons_self x xs), if_false]
    exact ih fun y hy => hpre y (List.mem_cons_of_mem x hy)

/-- Claim C4: `cached_evaluate` with a cache location.
1. When the backing store exists and holds a matching record, the result of
   the FIRST record whose fingerprint equals the evaluator's is returned, the
   store is left untouched (no de-duplication) and the model is never run.
2. On a miss it runs the full evaluation once, appends a
   `{params, results}` record and rewrites the whole store.
3. Consequently a second evaluator with an identical fingerprint running
   against the store produced by the first returns bit-for-bit the first
   evaluator's result with zero model invocations. -/
theorem cached_evaluate_fingerprint_memoization :
    (∀ (e : Evaluator) (v : EvaluationResult) (pre : List CacheEntry)
        (ent : CacheEntry) (post : List CacheEntry),
      (∀ x ∈ pre, x.params ≠ e.params) → ent.params = e.params →
      cached_evaluate e v true (some (pre ++ ent :: post)) =
        (ent.results, some (pre ++ ent :: post), 0)) ∧
    (∀ (e : Evaluator) (v : EvaluationResult) (entries : List CacheEntry),
      lookup_params e.params entries = none →
      cached_evaluate e v true (some entries) =
        (v, some (entries ++ [{ params := e.params, results := v }]), 1)) ∧
    (∀ (e1 e2 : Evaluator) (v1 v2 : EvaluationResult)
        (store0 : Option (List CacheEntry)),
      e2.params = e1.params →
      (store0 = none ∨
        ∃ entries, store0 = some entries ∧ lookup_params e1.params entries = none) →
      cached_evaluate e2 v2 true (cached_evaluate e1 v1 true store0).2.1 =
        ((cached_evaluate e1 v1 true store0).1,
          (cached_evaluate e1 v1 true store0).2.1, 0) ∧
      (cached_evaluate e1 v1 true store0).1 = v1 ∧
      (cached_evaluate e1 v1 true store0).2.2 = 1) := by
  refine ⟨?_, ?_, ?_⟩
  · intro e v pre ent post hpre hent
    simp [cached_evaluate, lookup_params_first e.params pre ent post hpre hent]
  · intro e v entries h
    simp [cached_evaluate, h]
  · intro e1 e2 v1 v2 store0 hp hstore
    rcases hstore with h0 | ⟨entries, h0, hmiss⟩
    · subst h0
      simp [cached_evaluate, lookup_params, hp]
    · subst h0
      simp only [cached_evaluate, hmiss]
      have hl : lookup_params e2.params
          (entries ++ [{ params := e1.params, results := v1 }]) = some v1 := by
        rw [hp]
        exact lookup_params_append_of_none e1.params entries v1 hmiss
      simp [hl]

/-- Witness for `cached_evaluate_fingerprint_memoization`: the round-trip
part at a concrete evaluator, default result and an initially missing store. -/
theorem cached_evaluate_fingerprint_memoization_witness :
    (cached_evaluate
        { device := "cpu", version := "v1", model_name := "m", questions := [],
          key_quantizer := { level := "token", params := [] },
          value_quantizer := { level := "token", params := [] },
          enable_draw_cache_insights := false } {} true
        (cached_evaluate
          { device := "cpu", version := "v1", model_name := "m", questions := [],
            key_quantizer := { level := "token", params := [] },
            value_quantizer := { level := "token", params := [] },
            enable_draw_cache_insights := false } {} true none).2.1 =
      ((cached_evaluate
          { device := "cpu", version := "v1", model_name := "m", questions := [],
            key_quantizer := { level := "token", params := [] },
            value_quantizer := { level := "token", params := [] },
            enable_draw_cache_insights := false } {} true none).1,
        (cached_evaluate
          { device := "cpu", version := "v1", model_name := "m", questions := [],
            key_quantizer := { level := "token", params := [] },
            value_quantizer := { level := "token", params := [] },
            enable_draw_cache_insights := false } {} true none).2.1, 0)) ∧
    (cached_evaluate
        { device := "cpu", version := "v1", model_name := "m", questions := [],
          key_quantizer := { level := "token", params := [] },
          value_quantizer := { level := "token", params := [] },
          enable_draw_cache_insights := false } {} true none).1 =
      ({} : EvaluationResult) ∧
    (cached_evaluate
        { device := "cpu", version := "v1", model_name := "m", questions := [],
          key_quantizer := { level := "token", params := [] },
          value_quantizer := { level := "token", params := [] },
          enable_draw_cache_insights := false } {} true none).2.2 = 1 :=
  cached_evaluate_fingerprint_memoization.2.2
    { device := "cpu", version := "v1", model_name := "m", questions := [],
      key_quantizer := { level := "token", params := [] },
      value_quantizer := { level := "token", params := [] },
      enable_draw_cache_insights := false }
    { device := "cpu", version := "v1", model_name := "m", questions := [],
      key_quantizer := { level := "token", params := [] },
      value_quantizer := { level := "token", params := [] },
      enable_draw_cache_insights := false } {} {} none rfl (Or.inl rfl)

/-- Claim C9: with diagnostics enabled, a non-token-granularity quantizer
makes `Evaluator.__init__` fail its assertion (before any model forward pass
— construction issues none), and `draw_cache_insights` re-asserts the same
token-level precondition when rendering. -/
theorem diagnostics_token_level_assertions :
    (∀ (device version model_name : String) (questions : List Question)
        (kq vq : Quantizer),
      kq.level ≠ "token" ∨ vq.level ≠ "token" →
      evaluator_init device version model_name questions kq vq true = none) ∧
    (∀ e : Evaluator,
      e.key_quantizer.level ≠ "token" ∨ e.value_quantizer.level ≠ "token" →
      draw_cache_insights e = none) := by
  constructor
  · intro device version model_name questions kq vq h
    rcases h with h | h <;> simp [evaluator_init, h]
  · intro e h
    rcases h with h | h <;> simp [draw_cache_insights, h]

theorem evaluate_loop_eq (single : ℕ → Question → EvaluationResult) :
    ∀ (qs : List Question) (idx : ℕ) (acc : EvaluationResult) (tt : ℕ) (acc_alp : ℚ),
    acc.answer_log_probability = some acc_alp →
    answers_ok single idx qs = true →
    evaluate_loop single idx qs acc tt = some
      ({ accuracy := acc.accuracy + qsum (fun i q => (single i q).accuracy) idx qs
         accuracy_confidence := acc.accuracy_confidence
         answer_log_probability := some (acc_alp +
           qsum (fun i q => ((single i q).answer_log_probability).getD 0) idx qs)
         quantization_error := acc.quantization_error +
           qsum (fun i q => (single i q).quantization_error) idx qs
         key_quantization_error := acc.key_quantization_error +
           qsum (fun i q => (single i q).key_quantization_error) idx qs
         value_quantization_error := acc.value_quantization_error +
           qsum (fun i q => (single i q).value_quantization_error) idx qs
         attention_error := acc.attention_error +
           qsum (fun i q => (single i q).attention_error) idx qs
         logit_error := acc.logit_error +
           qsum (fun i q => (single i q).logit_error) idx qs
         average_n_bits := acc.average_n_bits +
           qsum (fun i q => (single i q).average_n_bits * q.question_length) idx qs
         key_average_n_bits := acc.key_average_n_bits +
           qsum (fun i q => (single i q).key_average_n_bits * q.question_length) idx qs
         value_average_n_bits := acc.value_average_n_bits +
           qsum (fun i q => (single i q).value_average_n_bits * q.question_length) idx qs
         average_size := acc.average_size +
           qsum (fun i q => (single i q).average_size * q.question_length) idx qs
         key_average_size := acc.key_average_size +
           qsum (fun i q => (single i q).key_average_size * q.question_length) idx qs
         value_average_size := acc.value_average_size +
           qsum (fun i q => (single i q).value_average_size * q.question_length) idx qs },
        tt + total_len qs) := by
  intro qs
  induction qs with
  | nil =>
    intro idx acc tt acc_alp hacc hok
    obtain ⟨a1, a2, a3, a4, a5, a6, a7, a8, a9, a10, a11, a12, a13, a14⟩ := acc
    simp only [EvaluationResult.mk.injEq] at hacc ⊢
    simp [evaluate_loop, qsum, total_len, hacc.symm]
  | cons qh rest ih =>
    intro idx acc tt acc_alp hacc hok
    simp only [answers_ok, Bool.and_eq_true] at hok
    obtain ⟨hok1, hok2⟩ := hok
    obtain ⟨s_alp, hs⟩ := Option.isSome_iff_exists.mp hok1
    obtain ⟨a1, a2, a3, a4, a5, a6, a7, a8, a9, a10, a11, a12, a13, a14⟩ := acc
    simp only at hacc
    subst hacc
    simp only [evaluate_loop, hs]
    rw [ih (idx + 1) _ (tt + qh.question_length) (acc_alp + s_alp) rfl hok2]
    simp only [qsum, total_len, List.map_cons, List.sum_cons, Option.some.injEq,
      Prod.mk.injEq, EvaluationResult.mk.injEq, hs, Option.getD_some]
    and_intros <;> ring

theorem evaluate_eq (single : ℕ → Question → EvaluationResult) (qs : List Question)
    (hne : qs ≠ []) (hok : answers_ok single 0 qs = true) (htt : total_len qs ≠ 0) :
    evaluate single qs = some
      { accuracy := qsum (fun i q => (single i q).accuracy) 0 qs / (qs.length : ℚ)
        accuracy_confidence := 0
        answer_log_probability := some (qsum (fun i q =>
          ((single i q).answer_log_probability).getD 0) 0 qs / (qs.length : ℚ))
        quantization_error :=
          qsum (fun i q => (single i q).quantization_error) 0 qs / (qs.length : ℚ)
        key_quantization_error :=
          qsum (fun i q => (single i q).key_quantization_error) 0 qs / (qs.length : ℚ)
        value_quantization_error :=
          qsum (fun i q => (single i q).value_quantization_error) 0 qs / (qs.length : ℚ)
        attention_error :=
          qsum (fun i q => (single i q).attention_error) 0 qs / (qs.length : ℚ)
        logit_error :=
          qsum (fun i q => (single i q).logit_error) 0 qs / (qs.length : ℚ)
        average_n_bits :=
          qsum (fun i q => (single i q).average_n_bits * q.question_length) 0 qs /
            (total_len qs : ℚ)
        key_average_n_bits :=
          qsum (fun i q => (single i q).key_average_n_bits * q.question_length) 0 qs /
            (total_len qs : ℚ)
        value_average_n_bits :=
          qsum (fun i q => (single i q).value_average_n_bits * q.question_length) 0 qs /
            (total_len qs : ℚ)
        average_size :=
          qsum (fun i q => (single i q).average_size * q.question_length) 0 qs /
            (total_len qs : ℚ)
        key_average_size :=
          qsum (fun i q => (single i q).key_average_size * q.question_length) 0 qs /
            (total_len qs : ℚ)
        value_average_size :=
          qsum (fun i q => (single i q).value_average_size * q.question_length) 0 qs /
            (total_len qs : ℚ) } := by
  have hlen : ¬ qs.length = 0 := fun h0 => hne (List.length_eq_zero.mp h0)
  unfold evaluate
  rw [evaluate_loop_eq single qs 0 {} 0 0 rfl hok]
  simp [hlen, htt]

/-- Claim C3: on a non-empty corpus (with positive prefix lengths and valid
per-question answers), the aggregate returned by `Evaluator.evaluate` has
`accuracy`, `answer_log_probability`, `quantization_error`,
`key_/value_quantization_error`, `attention_error` and `logit_error` equal to
the unweighted per-question means (sums over `_evaluate_single` results
divided by the question count), and `average_n_bits`,
`key_/value_average_n_bits`, `average_size`, `key_/value_average_size` equal
to the token-weighted means (per-question value times `question_length`,
summed, divided by the total `question_length`). -/
theorem corpus_aggregation_means (data : ℕ → Question → SingleData)
    (qs : List Question) (hne : qs ≠ [])
    (hok : answers_ok (fun i q => evaluate_single (data i q) q) 0 qs = true)
    (hlen : ∀ q ∈ qs, 0 < q.question_length) :
    evaluate_full data qs = some
      { accuracy := qsum (fun i q => (evaluate_single (data i q) q).accuracy) 0 qs /
          (qs.length : ℚ)
        accuracy_confidence := 0
        answer_log_probability := some (qsum (fun i q =>
          ((evaluate_single (data i q) q).answer_log_probability).getD 0) 0 qs /
          (qs.length : ℚ))
        quantization_error :=
          qsum (fun i q => (evaluate_single (data i q) q).quantization_error) 0 qs /
            (qs.length : ℚ)
        key_quantization_error :=
          qsum (fun i q => (evaluate_single (data i q) q).key_quantization_error) 0 qs /
            (qs.length : ℚ)
        value_quantization_error :=
          qsum (fun i q => (evaluate_single (data i q) q).value_quantization_error) 0 qs /
            (qs.length : ℚ)
        attention_error :=
          qsum (fun i q => (evaluate_single (data i q) q).attention_error) 0 qs /
            (qs.length : ℚ)
        logit_error :=
          qsum (fun i q => (evaluate_single (data i q) q).logit_error) 0 qs /
            (qs.length : ℚ)
        average_n_bits :=
          qsum (fun i q => (evaluate_single (data i q) q).average_n_bits *
            q.question_length) 0 qs / (total_len qs : ℚ)
        key_average_n_bits :=
          qsum (fun i q => (evaluate_single (data i q) q).key_average_n_bits *
            q.question_length) 0 qs / (total_len qs : ℚ)
        value_average_n_bits :=
          qsum (fun i q => (evaluate_single (data i q) q).value_average_n_bits *
            q.question_length) 0 qs / (total_len qs : ℚ)
        average_size :=
          qsum (fun i q => (evaluate_single (data i q) q).average_size *
            q.question_length) 0 qs / (total_len qs : ℚ)
        key_average_size :=
          qsum (fun i q => (evaluate_single (data i q) q).key_average_size *
            q.question_length) 0 qs / (total_len qs : ℚ)
        value_average_size :=
          qsum (fun i q => (evaluate_single (data i q) q).value_average_size *
            q.question_length) 0 qs / (total_len qs : ℚ) } := by
  have htt : total_len qs ≠ 0 := by
    cases qs with
    | nil => exact absurd rfl hne
    | cons qh rest =>
      have h0 := hlen qh (List.mem_cons_self qh rest)
      simp only [total_len, List.map_cons, List.sum_cons]
      omega
  exact evaluate_eq (fun i q => evaluate_single (data i q) q) qs hne hok htt

/-- Witness for `corpus_aggregation_means`: two questions with prefix lengths
10 and 30 and per-question `average_size` 2 and 6; the corpus `average_size`
is the token-weighted mean `(10*2 + 30*6)/40 = 5`, not the unweighted 4. -/
theorem corpus_aggregation_means_witness :
    Option.map EvaluationResult.average_size
      (evaluate_full
        (fun i _ =>
          { first_word_log_softmax := fun _ _ => 0
            quantized_log_softmax := fun _ _ _ => 0
            key_cache := [0], quantized_key_cache := [0]
            value_cache := [0], quantized_value_cache := [0]
            attentions_sliced := [[0]], quantized_attentions_sliced := [[0]]
            logits_sliced := [0], quantized_logits := [0]
            key_average_n_bits := 0, value_average_n_bits := 0
            key_average_size := if i = 0 then 2 else 6
            value_average_size := if i = 0 then 2 else 6 })
        [{ input_ids := fun _ _ => 0, question_length := 10
           choice_length := [1], answer_idx := 0 },
         { input_ids := fun _ _ => 0, question_length := 30
           choice_length := [1], answer_idx := 0 }]) = some 5 := by
  rw [corpus_aggregation_means
    (fun i _ =>
      { first_word_log_softmax := fun _ _ => 0
        quantized_log_softmax := fun _ _ _ => 0
        key_cache := [0], quantized_key_cache := [0]
        value_cache := [0], quantized_value_cache := [0]
        attentions_sliced := [[0]], quantized_attentions_sliced := [[0]]
        logits_sliced := [0], quantized_logits := [0]
        key_average_n_bits := 0, value_average_n_bits := 0
        key_average_size := if i = 0 then 2 else 6
        value_average_size := if i = 0 then 2 else 6 })
    [{ input_ids := fun _ _ => 0, question_length := 10
       choice_length := [1], answer_idx := 0 },
     { input_ids := fun _ _ => 0, question_length := 30
       choice_length := [1], answer_idx := 0 }]
    (by simp)
    (by norm_num [answers_ok, evaluate_single, score_loop, choice_log_probability])
    (by norm_num)]
  norm_num [qsum, total_len, evaluate_single, score_loop, choice_log_probability,
    calc_tensor_error, calc_attention_error]

theorem evaluate_single_accuracy_01 (d : SingleData) (q : Question) :
    (evaluate_single d q).accuracy = 0 ∨ (evaluate_single d q).accuracy = 1 := by
  unfold evaluate_single
  dsimp only
  split
  · right; rfl
  · left; rfl

theorem qsum_accuracy_eq_correct_count (single : ℕ → Question → EvaluationResult)
    (h01 : ∀ i q, (single i q).accuracy = 0 ∨ (single i q).accuracy = 1) :
    ∀ (qs : List Question) (idx : ℕ),
    qsum (fun i q => (single i q).accuracy) idx qs =
      (correct_count single idx qs : ℚ) := by
  intro qs
  induction qs with
  | nil => intro idx; simp [qsum, correct_count]
  | cons qh rest ih =>
    intro idx
    rcases h01 idx qh with h | h
    · have h1 : ¬ (single idx qh).accuracy = 1 := by rw [h]; norm_num
      simp [qsum, correct_count, h, h1, ih]
    · simp only [qsum, correct_count, h, if_pos rfl, ih]
      push_cast
      ring

theorem accuracy_confidence_value_collapse (n : ℕ) (p : ℚ)
    (h : p = 0 ∨ p = 1) : accuracy_confidence_value n p = 0 := by
  rcases h with h | h <;> subst h <;>
    simp [accuracy_confidence_value]

/-- Claim C7: for a non-empty corpus of `N` questions (with positive prefix
lengths and valid answers) of which exactly `k` are answered correctly, the
final `accuracy` equals `k / N`, the stored `accuracy_confidence` equals
`1.96 * sqrt(accuracy * (1 - accuracy) / N)` (evaluator.py line 151, modelled
by `accuracy_confidence_value`), and that value collapses to `0` when the
accuracy is exactly `0` or `1`. -/
theorem accuracy_and_confidence_closed_form (data : ℕ → Question → SingleData)
    (qs : List Question) (hne : qs ≠ [])
    (hok : answers_ok (fun i q => evaluate_single (data i q) q) 0 qs = true)
    (hlen : ∀ q ∈ qs, 0 < q.question_length) :
    ∃ r, evaluate_full data qs = some r ∧
      r.accuracy =
        (correct_count (fun i q => evaluate_single (data i q) q) 0 qs : ℚ) /
          (qs.length : ℚ) ∧
      accuracy_confidence_value qs.length r.accuracy =
        1.96 * Real.sqrt (
          (((correct_count (fun i q => evaluate_single (data i q) q) 0 qs : ℚ) /
              (qs.length : ℚ) : ℚ) : ℝ) *
            (1 - (((correct_count (fun i q => evaluate_single (data i q) q) 0 qs : ℚ) /
              (qs.length : ℚ) : ℚ) : ℝ)) / ((qs.length : ℕ) : ℝ)) ∧
      ((r.accuracy = 0 ∨ r.accuracy = 1) →
        accuracy_confidence_value qs.length r.accuracy = 0) := by
  have h1 := corpus_aggregation_means data qs hne hok hlen
  have hacc : (Option.map EvaluationResult.accuracy (evaluate_full data qs)) =
      some (qsum (fun i q => (evaluate_single (data i q) q).accuracy) 0 qs /
        (qs.length : ℚ)) := by rw [h1]; rfl
  refine ⟨_, h1, ?_, ?_, ?_⟩
  · dsimp only
    rw [qsum_accuracy_eq_correct_count (fun i q => evaluate_single (data i q) q)
      (fun i q => evaluate_single_accuracy_01 (data i q) q) qs 0]
  · dsimp only
    rw [qsum_accuracy_eq_correct_count (fun i q => evaluate_single (data i q) q)
      (fun i q => evaluate_single_accuracy_01 (data i q) q) qs 0]
    rfl
  · intro h
    exact accuracy_confidence_value_collapse qs.length _ h

/-- Witness for `accuracy_and_confidence_closed_form`: a single question with
two choices, correct answer at index 1, but the unquantized head assigns the
higher score to choice 0, so zero questions are answered correctly and the
accuracy is `0/1 = 0`. -/
theorem accuracy_and_confidence_closed_form_witness :
    ∃ r, evaluate_full
        (fun _ _ =>
          { first_word_log_softmax := fun c _ => if c = 0 then 1 else 0
            quantized_log_softmax := fun _ _ _ => 0
            key_cache := [0], quantized_key_cache := [0]
            value_cache := [0], quantized_value_cache := [0]
            attentions_sliced := [[0]], quantized_attentions_sliced := [[0]]
            logits_sliced := [0], quantized_logits := [0]
            key_average_n_bits := 0, value_average_n_bits := 0
            key_average_size := 0, value_average_size := 0 })
        [{ input_ids := fun _ _ => 0, question_length := 1
           choice_length := [1, 1], answer_idx := 1 }] = some r ∧
      r.accuracy =
        (correct_count
            (fun _ q => evaluate_single
              { first_word_log_softmax := fun c _ => if c = 0 then 1 else 0
                quantized_log_softmax := fun _ _ _ => 0
                key_cache := [0], quantized_key_cache := [0]
                value_cache := [0], quantized_value_cache := [0]
                attentions_sliced := [[0]], quantized_attentions_sliced := [[0]]
                logits_sliced := [0], quantized_logits := [0]
                key_average_n_bits := 0, value_average_n_bits := 0
                key_average_size := 0, value_average_size := 0 } q) 0
            [{ input_ids := fun _ _ => 0, question_length := 1
               choice_length := [1, 1], answer_idx := 1 }] : ℚ) /
          (([{ input_ids := fun _ _ => 0, question_length := 1
               choice_length := [1, 1], answer_idx := 1 }] : List Question).length : ℚ) ∧
      accuracy_confidence_value
          ([{ input_ids := fun _ _ => 0, question_length := 1
              choice_length := [1, 1], answer_idx := 1 }] : List Question).length
          r.accuracy =
        1.96 * Real.sqrt (
          (((correct_count
              (fun _ q => evaluate_single
                { first_word_log_softmax := fun c _ => if c = 0 then 1 else 0
                  quantized_log_softmax := fun _ _ _ => 0
                  key_cache := [0], quantized_key_cache := [0]
                  value_cache := [0], quantized_value_cache := [0]
                  attentions_sliced := [[0]], quantized_attentions_sliced := [[0]]
                  logits_sliced := [0], quantized_logits := [0]
                  key_average_n_bits := 0, value_average_n_bits := 0
                  key_average_size := 0, value_average_size := 0 } q) 0
              [{ input_ids := fun _ _ => 0, question_length := 1
                 choice_length := [1, 1], answer_idx := 1 }] : ℚ) /
            (([{ input_ids := fun _ _ => 0, question_length := 1
                 choice_length := [1, 1], answer_idx := 1 }] :
              List Question).length : ℚ) : ℚ) : ℝ) *
          (1 - (((correct_count
              (fun _ q => evaluate_single
                { first_word_log_softmax := fun c _ => if c = 0 then 1 else 0
                  quantized_log_softmax := fun _ _ _ => 0
                  key_cache := [0], quantized_key_cache := [0]
                  value_cache := [0], quantized_value_cache := [0]
                  attentions_sliced := [[0]], quantized_attentions_sliced := [[0]]
                  logits_sliced := [0], quantized_logits := [0]
                  key_average_n_bits := 0, value_average_n_bits := 0
                  key_average_size := 0, value_average_size := 0 } q) 0
              [{ input_ids := fun _ _ => 0, question_length := 1
                 choice_length := [1, 1], answer_idx := 1 }] : ℚ) /
            (([{ input_ids := fun _ _ => 0, question_length := 1
                 choice_length := [1, 1], answer_idx := 1 }] :
              List Question).length : ℚ) : ℚ) : ℝ)) /
          ((([{ input_ids := fun _ _ => 0, question_length := 1
                choice_length := [1, 1], answer_idx := 1 }] :
            List Question).length : ℕ) : ℝ)) ∧
      ((r.accuracy = 0 ∨ r.accuracy = 1) →
        accuracy_confidence_value
          ([{ input_ids := fun _ _ => 0, question_length := 1
              choice_length := [1, 1], answer_idx := 1 }] : List Question).length
          r.accuracy = 0) :=
  accuracy_and_confidence_closed_form
    (fun _ _ =>
      { first_word_log_softmax := fun c _ => if c = 0 then 1 else 0
        quantized_log_softmax := fun _ _ _ => 0
        key_cache := [0], quantized_key_cache := [0]
        value_cache := [0], quantized_value_cache := [0]
        attentions_sliced := [[0]], quantized_attentions_sliced := [[0]]
        logits_sliced := [0], quantized_logits := [0]
        key_average_n_bits := 0, value_average_n_bits := 0
        key_average_size := 0, value_average_size := 0 })
    [{ input_ids := fun _ _ => 0, question_length := 1
       choice_length := [1, 1], answer_idx := 1 }]
    (by simp)
    (by norm_num [answers_ok, evaluate_single, score_loop, choice_log_probability])
    (by norm_num)

/-- Claim C2: for a question whose `answer_idx` is a valid choice index (and
whose continuation lengths are positive, the domain on which the source's
division is defined), `_evaluate_single` records as `answer_log_probability`
exactly the per-token-normalized log probability of the answer choice: the
unquantized pass's log-softmax at the last prefix position evaluated at the
first continuation token, plus the quantized pass's log-softmax at each
remaining continuation position, divided by the continuation length.  The
same `choice_log_probability` expression is the score the loop computes for
every choice (see `evaluate_single`). -/
theorem answer_log_probability_formula (d : SingleData) (q : Question)
    (h : q.answer_idx < q.choice_length.length)
    (hL : ∀ L ∈ q.choice_length, 0 < L) :
    (evaluate_single d q).answer_log_probability =
      some ((d.first_word_log_softmax q.answer_idx
            (q.input_ids q.answer_idx q.question_length) +
          ((List.range (q.choice_length.getD q.answer_idx 0 - 1)).map
            (fun j => d.quantized_log_softmax q.answer_idx j
              (q.input_ids q.answer_idx (q.question_length + 1 + j)))).sum) /
        ((q.choice_length.getD q.answer_idx 0 : ℕ) : ℚ)) := by
  have hset := score_loop_answer_set
    (choice_log_probability d.first_word_log_softmax d.quantized_log_softmax
      q.input_ids q.question_length) q.answer_idx q.choice_length 0 {}
    (Nat.zero_le _) (by simpa using h)
  rw [Nat.sub_zero] at hset
  unfold evaluate_single
  dsimp only
  rw [hset]
  rfl

/-- Witness for `answer_log_probability_formula`: one choice of length 2,
prefix length 2, constant token id 3; the recorded value is
`((0 + 3) + (0 + 0 + 3)) / 2 = 3`. -/
theorem answer_log_probability_formula_witness :
    (evaluate_single
      { first_word_log_softmax := fun c t => (c : ℚ) + t
        quantized_log_softmax := fun c j t => (c : ℚ) + j + t
        key_cache := [0], quantized_key_cache := [0]
        value_cache := [0], quantized_value_cache := [0]
        attentions_sliced := [[0]], quantized_attentions_sliced := [[0]]
        logits_sliced := [0], quantized_logits := [0]
        key_average_n_bits := 0, value_average_n_bits := 0
        key_average_size := 0, value_average_size := 0 }
      { input_ids := fun _ _ => 3, question_length := 2
        choice_length := [2], answer_idx := 0 }).answer_log_probability =
      some 3 := by
  rw [answer_log_probability_formula _ _ (by decide) (by decide)]
  norm_num [List.range_succ]

/-- Claim C6: the scoring loop of `_evaluate_single` (with the per-choice
scores given by `choice_log_probability`, as instantiated in
`evaluate_single`) resolves ties at the maximum by first occurrence: when two
or more choices are tied at the maximal score, the recorded
`max_choice_idx` attains the maximum and is at most every index whose score
equals that maximum (the comparison `quantized_log_probability >
max_log_probability` is strict, so a later equal score never replaces the
current maximum). -/
theorem argmax_first_occurrence_tie_break
    (fw : ℕ → ℕ → ℚ) (qls : ℕ → ℕ → ℕ → ℚ) (ids : ℕ → ℕ → ℕ)
    (question_len answer_idx : ℕ) (Ls : List ℕ) (i1 i2 : ℕ)
    (h12 : i1 < i2) (hi2 : i2 < Ls.length)
    (hmax : ∀ k, k < Ls.length →
      choice_log_probability fw qls ids question_len k (Ls.getD k 0) ≤
        choice_log_probability fw qls ids question_len i1 (Ls.getD i1 0))
    (htie : choice_log_probability fw qls ids question_len i2 (Ls.getD i2 0) =
      choice_log_probability fw qls ids question_len i1 (Ls.getD i1 0)) :
    ∃ j, (score_loop (choice_log_probability fw qls ids question_len) answer_idx
        0 Ls {}).max_choice_idx = some j ∧
      choice_log_probability fw qls ids question_len j (Ls.getD j 0) =
        choice_log_probability fw qls ids question_len i1 (Ls.getD i1 0) ∧
      ∀ k, k < Ls.length →
        choice_log_probability fw qls ids question_len k (Ls.getD k 0) =
          choice_log_probability fw qls ids question_len i1 (Ls.getD i1 0) →
        j ≤ k := by
  cases Ls with
  | nil => exact absurd hi2 (by simp)
  | cons L rest =>
    obtain ⟨j2, e2, _, hjlen, hb, hs⟩ :=
      score_loop_first_argmax (choice_log_probability fw qls ids question_len)
        answer_idx L rest
    refine ⟨j2, e2, ?_, ?_⟩
    · exact le_antisymm (hmax j2 hjlen) (hb i1 (lt_trans h12 hi2))
    · intro k hk hk2
      by_contra hjk
      have hklt : k < j2 := by omega
      have hlt := hs k hklt
      rw [hk2] at hlt
      exact absurd (lt_of_lt_of_le hlt (hmax j2 hjlen)) (lt_irrefl _)

/-- Witness for `argmax_first_occurrence_tie_break`: three choices with
identical scores (all zero); the loop keeps the first index, 0. -/
theorem argmax_first_occurrence_tie_break_witness :
    ∃ j, (score_loop
        (choice_log_probability (fun _ _ => 0) (fun _ _ _ => 0) (fun _ _ => 0) 1)
        0 0 [1, 1, 1] {}).max_choice_idx = some j ∧
      choice_log_probability (fun _ _ => 0) (fun _ _ _ => 0) (fun _ _ => 0) 1 j
          ([1, 1, 1].getD j 0) =
        choice_log_probability (fun _ _ => 0) (fun _ _ _ => 0) (fun _ _ => 0) 1 0
          ([1, 1, 1].getD 0 0) ∧
      ∀ k, k < ([1, 1, 1] : List ℕ).length →
        choice_log_probability (fun _ _ => 0) (fun _ _ _ => 0) (fun _ _ => 0) 1 k
            ([1, 1, 1].getD k 0) =
          choice_log_probability (fun _ _ => 0) (fun _ _ _ => 0) (fun _ _ => 0) 1 0
            ([1, 1, 1].getD 0 0) →
        j ≤ k :=
  argmax_first_occurrence_tie_break (fun _ _ => 0) (fun _ _ _ => 0) (fun _ _ => 0)
    1 0 [1, 1, 1] 0 1 (by decide) (by decide)
    (by intro k hk; simp [choice_log_probability])
    (by simp [choice_log_probability])

theorem evaluate_loop_none_of_mem (single : ℕ → Question → EvaluationResult)
    (q : Question) (hq : ∀ i, (single i q).answer_log_probability = none) :
    ∀ (qs : List Question) (idx : ℕ) (acc : EvaluationResult) (tt : ℕ), q ∈ qs →
    evaluate_loop single idx qs acc tt = none := by
  intro qs
  induction qs with
  | nil => intro idx acc tt hmem; simp at hmem
  | cons qh rest ih =>
    intro idx acc tt hmem
    rcases List.mem_cons.mp hmem with hqh | hrest
    · subst hqh
      cases hacc : acc.answer_log_probability with
      | none => simp [evaluate_loop, hacc]
      | some v => simp [evaluate_loop, hacc, hq idx]
    · cases hacc : acc.answer_log_probability with
      | none => simp [evaluate_loop, hacc]
      | some v =>
        cases hs : (single idx qh).answer_log_probability with
        | none => simp [evaluate_loop, hacc, hs]
        | some w =>
          simp only [evaluate_loop, hacc, hs]
          exact ih (idx + 1) _ _ hrest

/-- Claim C8 (counterexample): a question with an out-of-range answer index
(one choice, `answer_idx = 5`) does NOT make `_evaluate_single` fail; the
call returns a complete `EvaluationResult` — with `accuracy = 0` and the
Python value `None` stored in `answer_log_probability` — rather than
propagating a data-validity error. -/
theorem evaluate_single_returns_on_invalid_question_cex :
    evaluate_single
      { first_word_log_softmax := fun _ _ => 0, quantized_log_softmax := fun _ _ _ => 0
        key_cache := [0], quantized_key_cache := [0]
        value_cache := [0], quantized_value_cache := [0]
        attentions_sliced := [[0]], quantized_attentions_sliced := [[0]]
        logits_sliced := [0], quantized_logits := [0]
        key_average_n_bits := 2, value_average_n_bits := 2
        key_average_size := 4, value_average_size := 4 }
      { input_ids := fun _ _ => 0, question_length := 1
        choice_length := [1], answer_idx := 5 } =
    { accuracy := 0, accuracy_confidence := 0, answer_log_probability := none
      quantization_error := 0, key_quantization_error := 0
      value_quantization_error := 0, attention_error := 0, logit_error := 0
      average_n_bits := 2, key_average_n_bits := 2, value_average_n_bits := 2
      average_size := 4, key_average_size := 4, value_average_size := 4 } := by
  norm_num [evaluate_single, score_loop, choice_log_probability,
    calc_tensor_error, calc_attention_error]

/-- Claim C8 (amended): `_evaluate_single` performs no validation.  For a
question with empty choices or an out-of-range `answer_idx` it returns an
`EvaluationResult` whose `answer_log_probability` is the Python value `None`;
the run still aborts, but only later, inside `Evaluator.evaluate`, when the
corpus accumulator executes `result.answer_log_probability +=
single_result.answer_log_probability` on that `None` (TypeError, modelled as
`none`), for every corpus containing such a question. -/
theorem invalid_question_aborts_in_aggregation :
    (∀ (d : SingleData) (q : Question),
      q.choice_length = [] ∨ q.choice_length.length ≤ q.answer_idx →
      (evaluate_single d q).answer_log_probability = none) ∧
    (∀ (data : ℕ → Question → SingleData) (qs : List Question) (q : Question),
      q ∈ qs →
      q.choice_length = [] ∨ q.choice_length.length ≤ q.answer_idx →
      evaluate_full data qs = none) := by
  have hnone : ∀ (d : SingleData) (q : Question),
      q.choice_length = [] ∨ q.choice_length.length ≤ q.answer_idx →
      (evaluate_single d q).answer_log_probability = none := by
    intro d q hbad
    unfold evaluate_single
    dsimp only
    rcases hbad with hemp | hoob
    · rw [hemp]
      rfl
    · rw [score_loop_answer_of_ge _ q.answer_idx q.choice_length 0 {}
        (by omega)]
  refine ⟨hnone, ?_⟩
  intro data qs q hmem hbad
  unfold evaluate_full evaluate
  rw [evaluate_loop_none_of_mem (fun i q2 => evaluate_single (data i q2) q2) q
    (fun i => hnone (data i q) q hbad) qs 0 {} 0 hmem]

/-- Witness for `invalid_question_aborts_in_aggregation`: a one-question
corpus whose question has `answer_idx = 5` but a single choice; the
per-question result carries `None` and the corpus evaluation aborts. -/
theorem invalid_question_aborts_in_aggregation_witness :
    (evaluate_single
      { first_word_log_softmax := fun _ _ => 0, quantized_log_softmax := fun _ _ _ => 0
        key_cache := [], quantized_key_cache := []
        value_cache := [], quantized_value_cache := []
        attentions_sliced := [], quantized_attentions_sliced := []
        logits_sliced := [], quantized_logits := []
        key_average_n_bits := 0, value_average_n_bits := 0
        key_average_size := 0, value_average_size := 0 }
      { input_ids := fun _ _ => 0, question_length := 1
        choice_length := [1], answer_idx := 5 }).answer_log_probability = none ∧
    evaluate_full
      (fun _ _ =>
        { first_word_log_softmax := fun _ _ => 0, quantized_log_softmax := fun _ _ _ => 0
          key_cache := [], quantized_key_cache := []
          value_cache := [], quantized_value_cache := []
          attentions_sliced := [], quantized_attentions_sliced := []
          logits_sliced := [], quantized_logits := []
          key_average_n_bits := 0, value_average_n_bits := 0
          key_average_size := 0, value_average_size := 0 })
      [{ input_ids := fun _ _ => 0, question_length := 1
         choice_length := [1], answer_idx := 5 }] = none :=
  ⟨invalid_question_aborts_in_aggregation.1 _ _ (Or.inr (by decide)),
    invalid_question_aborts_in_aggregation.2 _ _
      { input_ids := fun _ _ => 0, question_length := 1
        choice_length := [1], answer_idx := 5 }
      (List.mem_singleton.mpr rfl) (Or.inr (by decide))⟩

/-- Witness for `diagnostics_token_level_assertions` at a channel-level key
quantizer. -/
theorem diagnostics_token_level_assertions_witness :
    evaluator_init "cpu" "v1" "m" [] { level := "channel", params := [] }
        { level := "token", params := [] } true = none ∧
    draw_cache_insights
        { device := "cpu", version := "v1", model_name := "m", questions := [],
          key_quantizer := { level := "channel", params := [] },
          value_quantizer := { level := "token", params := [] },
          enable_draw_cache_insights := true } = none :=
  ⟨diagnostics_token_level_assertions.1 "cpu" "v1" "m" []
      { level := "channel", params := [] } { level := "token", params := [] }
      (Or.inl (by decide)),
    diagnostics_token_level_assertions.2
      { device := "cpu", version := "v1", model_name := "m", questions := [],
        key_quantizer := { level := "channel", params := [] },
        value_quantizer := { level := "token", params := [] },
        enable_draw_cache_insights := true }
      (Or.inl (by decide))⟩

end KVQ
